import Mathlib

/-!
Verification of the habit-tracker backend (src/main.py, src/schemas.py).

The service is a thin layer over a document store holding two collections,
`habit` and `habitentry`.  We embed the store as explicit lists of documents
and each endpoint handler as a pure function on that state.  Dates and
timestamps are represented as natural numbers (only their equality and order
matter to the code).  A JSON request body is represented by a record of
`Option` fields: `none` means the field was omitted from the payload.
-/

namespace HabitTracker

/-- A creation request body as received by the `POST /api/habits` endpoint
(before validation).  `none` in a field means the payload omitted it. -/
structure HabitPayload where
  title : Option String
  description : Option String
  category : Option String
  frequency : Option String
  goal_per_period : Option Int
  color : Option String
deriving DecidableEq

/-- The `HabitCreate` pydantic model of main.py (lines 104-110) after request
parsing: `title` is required, `category` defaults to "sonstiges", `frequency`
defaults to "daily", `goal_per_period` defaults to 1 with only a lower bound
`ge=1`, `description` and `color` default to null. -/
structure HabitCreateData where
  title : String
  description : Option String
  category : Option String
  frequency : String
  goal_per_period : Int
  color : Option String
deriving DecidableEq

/-- A validated `Habit` pydantic model instance (schemas.py lines 13-36):
what `create_document` serializes into the `habit` collection. -/
structure HabitRecord where
  title : String
  description : Option String
  category : Option String
  frequency : String
  goal_per_period : Int
  color : Option String
deriving DecidableEq

/-- A document of the `habit` collection: the dumped `HabitRecord` plus the
store-assigned `_id`, kept in string form. -/
structure HabitDoc where
  id : String
  data : HabitRecord
deriving DecidableEq

/-- A document of the `habitentry` collection.  `completed` is `Option Bool`
because a raw store document may lack the field (the handlers read it with
`.get("completed", False)`).  `created_at` and `updated_at` are the ad-hoc
timestamps attached by the upsert in `complete_today`. -/
structure EntryDoc where
  habit_id : String
  entry_date : Nat
  completed : Option Bool
  notes : Option String
  created_at : Nat
  updated_at : Nat
deriving DecidableEq

/-- The persisted state: the `habit` and `habitentry` collections, each a list
of documents in insertion order. -/
structure DBState where
  habits : List HabitDoc
  entries : List EntryDoc
deriving DecidableEq

/-- The empty store. -/
def initState : DBState := { habits := [], entries := [] }

/-- How a request fails: `clientError` is a 422 validation response produced
by FastAPI from the `HabitCreate` request model (with the failing field in its
detail); `serverError` is an unhandled exception raised inside the handler
(here: a pydantic `ValidationError` from constructing the `Habit` schema),
surfaced as a 500.  Either way the handler performs no write. -/
inductive ApiError where
  | clientError (detail : String)
  | serverError (detail : String)
deriving DecidableEq

/-- The `category` literal values accepted by the `Habit` schema
(schemas.py lines 20-28). -/
def habitCategories : List String :=
  ["gebet", "quran", "dhikr", "spenden", "wissen", "gesundheit", "sonstiges"]

/-- Request parsing against `HabitCreate` (main.py lines 104-110): `title`
is required, `goal_per_period` carries `ge=1`, the other fields only have
defaults.  `category` is an arbitrary string at this stage. -/
def habitCreateValidate (p : HabitPayload) : Except String HabitCreateData :=
  match p.title with
  | none => .error "title: field required"
  | some t =>
    match p.goal_per_period with
    | some g =>
      if g < 1 then .error "goal_per_period: input should be at least 1"
      else .ok { title := t, description := p.description,
                 category := some (p.category.getD "sonstiges"),
                 frequency := p.frequency.getD "daily",
                 goal_per_period := g, color := p.color }
    | none =>
      .ok { title := t, description := p.description,
            category := some (p.category.getD "sonstiges"),
            frequency := p.frequency.getD "daily",
            goal_per_period := 1, color := p.color }

/-- The `category` literal check of the `Habit` schema (schemas.py
lines 20-28): null or one of the seven literals. -/
def categoryOk : Option String → Bool
  | none => true
  | some c => habitCategories.contains c

/-- The `frequency` literal check of the `Habit` schema (schemas.py
lines 29-31). -/
def frequencyOk (f : String) : Bool :=
  f == "daily" || f == "weekly"

/-- Construction of the `Habit` schema instance inside the handler
(main.py line 115, `HabitSchema(**payload.model_dump())`): `category` must be
null or one of the seven literals, `frequency` must be "daily" or "weekly",
`goal_per_period` carries `ge=1, le=1000`.  `title` has no constraint beyond
being a string (the empty string passes).  A failure is a pydantic
`ValidationError` raised inside the handler. -/
def habitSchemaValidate (d : HabitCreateData) : Except String HabitRecord :=
  if ! categoryOk d.category then
    .error "category: input should be one of the literal values"
  else if ! frequencyOk d.frequency then
    .error "frequency: input should be daily or weekly"
  else if d.goal_per_period < 1 ∨ 1000 < d.goal_per_period then
    .error "goal_per_period: input should be between 1 and 1000"
  else
    .ok { title := d.title, description := d.description, category := d.category,
          frequency := d.frequency, goal_per_period := d.goal_per_period,
          color := d.color }

/-- Modelled from the spec: `create_document(kind, schema_instance)` of the
persistence adapter (database.py, not shipped under src/) "serializes the
validated entity and inserts it into the collection named after `kind`;
returns the newly assigned identifier.  No side effects beyond the insert."
The assigned identifier is passed in as `newId`. -/
def create_document (newId : String) (r : HabitRecord) (st : DBState) : DBState :=
  { st with habits := st.habits ++ [{ id := newId, data := r }] }

/-- Handler of `POST /api/habits` (main.py lines 113-117): parse the body as
`HabitCreate`, build the `Habit` schema instance, insert it, return the new
identifier.  `newId` stands for the identifier the store assigns. -/
def create_habit (p : HabitPayload) (newId : String) (st : DBState) :
    Except ApiError String × DBState :=
  match habitCreateValidate p with
  | .error e => (.error (.clientError e), st)
  | .ok d =>
    match habitSchemaValidate d with
    | .error e => (.error (.serverError e), st)
    | .ok r => (.ok newId, create_document newId r st)

/-- The filter `{"habit_id": hid, "entry_date": day}` used by the entry
handlers. -/
def entryMatches (hid : String) (day : Nat) (e : EntryDoc) : Bool :=
  e.habit_id == hid && e.entry_date == day

/-- Mongo `find_one` on the `habitentry` collection: the first document
matching the filter, if any. -/
def findOneEntry (hid : String) (day : Nat) (l : List EntryDoc) : Option EntryDoc :=
  l.find? (entryMatches hid day)

/-- Python truthiness of `existing and existing.get("completed")`: false when
no document was found, when the field is absent, and when it is false. -/
def isCompletedDoc : Option EntryDoc → Bool
  | some e => e.completed.getD false
  | none => false

/-- Mongo `update_one(filter, {"$set": entry.model_dump() | {"updated_at": now},
"$setOnInsert": {"created_at": now}}, upsert=True)` (main.py lines 145-149).
If a document matches the filter, the first match is updated in place:
`$set` overwrites `habit_id`, `entry_date`, `completed := true`, `notes := none`
and `updated_at`, leaving `created_at` untouched.  Otherwise a fresh document
built from the filter, `$set` and `$setOnInsert` fields is inserted. -/
def upsertEntry (hid : String) (day now : Nat) : List EntryDoc → List EntryDoc
  | [] => [{ habit_id := hid, entry_date := day, completed := some true
             notes := none, created_at := now, updated_at := now }]
  | e :: rest =>
    if entryMatches hid day e then
      { e with habit_id := hid, entry_date := day, completed := some true
               notes := none, updated_at := now } :: rest
    else e :: upsertEntry hid day now rest

/-- Mongo `delete_one(filter)`: removes the first matching document; the
boolean is `deleted_count == 1`. -/
def deleteOneEntry (hid : String) (day : Nat) : List EntryDoc → List EntryDoc × Bool
  | [] => ([], false)
  | e :: rest =>
    if entryMatches hid day e then (rest, true)
    else
      let r := deleteOneEntry hid day rest
      (e :: r.1, r.2)

/-- Status body of `POST /api/habits/{id}/complete_today`. -/
inductive CompleteStatus where
  | completed
  | already_completed
deriving DecidableEq

/-- Status body of `DELETE /api/habits/{id}/complete_today`. -/
inductive RemoveStatus where
  | removed
  | not_found
deriving DecidableEq

/-- Handler of `POST /api/habits/{habit_id}/complete_today` (main.py lines
136-150).  `today` is the current UTC calendar date, `now` the timestamp
taken for `updated_at`/`created_at`. -/
def complete_today (habit_id : String) (today now : Nat) (st : DBState) :
    CompleteStatus × DBState :=
  if isCompletedDoc (findOneEntry habit_id today st.entries) then
    (.already_completed, st)
  else
    (.completed, { st with entries := upsertEntry habit_id today now st.entries })

/-- Handler of `DELETE /api/habits/{habit_id}/complete_today` (main.py lines
153-157). -/
def uncomplete_today (habit_id : String) (today : Nat) (st : DBState) :
    RemoveStatus × DBState :=
  let r := deleteOneEntry habit_id today st.entries
  (if r.2 then .removed else .not_found, { st with entries := r.1 })

/-- The derived flag of `GET /api/habits` (main.py line 131):
`bool(entry and entry.get("completed", False))` for the `find_one` lookup on
`(habit_id, today)`. -/
def todayCompletedFlag (hid : String) (today : Nat) (entries : List EntryDoc) : Bool :=
  isCompletedDoc (findOneEntry hid today entries)

/-- Modelled from the spec: `get_documents("habit", {}, None)` of the
persistence adapter (database.py, not shipped under src/) returns all records
of the collection in store-default order; here, insertion order. -/
def get_documents (st : DBState) : List HabitDoc := st.habits

/-- Handler of `GET /api/habits` (main.py lines 120-133): every stored habit
paired with its derived `today_completed` boolean. -/
def list_habits (today : Nat) (st : DBState) : List (HabitDoc × Bool) :=
  (get_documents st).map (fun h => (h, todayCompletedFlag h.id today st.entries))

/-- Insertion step of the model of Mongo `.sort("entry_date", -1)`: place `e`
before the first element with a strictly smaller date. -/
def insertByDateDesc (e : EntryDoc) : List EntryDoc → List EntryDoc
  | [] => [e]
  | x :: xs => if x.entry_date < e.entry_date then e :: x :: xs else x :: insertByDateDesc e xs

/-- Model of Mongo `.sort("entry_date", -1)`: the documents reordered by
`entry_date` descending (insertion sort; Mongo fixes no order between equal
keys, any sorted permutation is a faithful model). -/
def sortByDateDesc : List EntryDoc → List EntryDoc
  | [] => []
  | e :: xs => insertByDateDesc e (sortByDateDesc xs)

/-- Mongo cursor `.limit(n)`: a limit of 0 is documented as "equivalent to
setting no limit"; a negative limit acts like its absolute value (and closes
the cursor after one batch). -/
def mongoLimit (n : Int) (xs : List α) : List α :=
  if n == 0 then xs else xs.take n.natAbs

/-- Handler of `GET /api/habits/{habit_id}/entries` (main.py lines 161-170):
filter by `habit_id`, sort by `entry_date` descending, cap at `limit`
(default 30), and reduce each document to the pair
`(entry_date, completed or false)`. -/
def get_entries (habit_id : String) (limit : Int) (st : DBState) : List (Nat × Bool) :=
  (mongoLimit limit (sortByDateDesc (st.entries.filter (fun e => e.habit_id == habit_id)))).map
    (fun e => (e.entry_date, e.completed.getD false))

/-- One call to a state-relevant endpoint, with the ambient date/time and the
store-assigned identifier made explicit. -/
inductive Op where
  | createHabit (p : HabitPayload) (newId : String)
  | listHabits (today : Nat)
  | completeToday (habit_id : String) (today now : Nat)
  | uncompleteToday (habit_id : String) (today : Nat)
  | getEntries (habit_id : String) (limit : Int)
deriving DecidableEq

/-- The effect of one endpoint call on the store (read-only endpoints leave
it unchanged). -/
def applyOp (st : DBState) : Op → DBState
  | .createHabit p i => (create_habit p i st).2
  | .listHabits _ => st
  | .completeToday h t n => (complete_today h t n st).2
  | .uncompleteToday h t => (uncomplete_today h t st).2
  | .getEntries _ _ => st

/-- The store after a sequence of endpoint calls, starting empty. -/
def runOps (ops : List Op) : DBState := ops.foldl applyOp initState

/-- No two documents of the `habitentry` collection share a
`(habit_id, entry_date)` key. -/
def uniqueEntries : List EntryDoc → Bool
  | [] => true
  | e :: rest =>
    rest.all (fun x => !(x.habit_id == e.habit_id && x.entry_date == e.entry_date)) &&
      uniqueEntries rest

/-! ### Helper lemmas about the entry-collection primitives -/

theorem entryMatches_iff {hid : String} {day : Nat} {e : EntryDoc} :
    entryMatches hid day e = true ↔ e.habit_id = hid ∧ e.entry_date = day := by
  simp [entryMatches]

theorem uniqueEntries_cons {e : EntryDoc} {rest : List EntryDoc} :
    uniqueEntries (e :: rest) = true ↔
      (∀ x ∈ rest, ¬(x.habit_id = e.habit_id ∧ x.entry_date = e.entry_date)) ∧
        uniqueEntries rest = true := by
  simp only [uniqueEntries, Bool.and_eq_true, List.all_eq_true, Bool.not_eq_true',
    Bool.and_eq_false_iff, beq_eq_false_iff_ne, ne_eq]
  constructor
  · rintro ⟨h1, h2⟩
    exact ⟨fun x hx hk => (h1 x hx).elim (fun h => h hk.1) (fun h => h hk.2), h2⟩
  · rintro ⟨h1, h2⟩
    refine ⟨fun x hx => ?_, h2⟩
    by_cases hh : x.habit_id = e.habit_id
    · exact Or.inr (fun hd => h1 x hx ⟨hh, hd⟩)
    · exact Or.inl hh

/-- If the whole collection is key-unique, two documents sharing a key are the
same document. -/
theorem uniqueEntries_eq_of_key {l : List EntryDoc} (hu : uniqueEntries l = true)
    {x y : EntryDoc} (hx : x ∈ l) (hy : y ∈ l)
    (h1 : x.habit_id = y.habit_id) (h2 : x.entry_date = y.entry_date) : x = y := by
  induction l with
  | nil => cases hx
  | cons e rest ih =>
    rcases uniqueEntries_cons.1 hu with ⟨hall, hrest⟩
    rcases List.mem_cons.1 hx with rfl | hx'
    · rcases List.mem_cons.1 hy with rfl | hy'
      · rfl
      · exact absurd ⟨h1.symm, h2.symm⟩ (hall y hy')
    · rcases List.mem_cons.1 hy with rfl | hy'
      · exact absurd ⟨h1, h2⟩ (hall x hx')
      · exact ih hrest hx' hy'

/-- Every document of the upserted collection is either an old document or
carries the upserted key and `completed = true`. -/
theorem mem_upsertEntry {hid : String} {day now : Nat} {l : List EntryDoc} {x : EntryDoc}
    (hx : x ∈ upsertEntry hid day now l) :
    x ∈ l ∨ (x.habit_id = hid ∧ x.entry_date = day ∧ x.completed = some true) := by
  induction l with
  | nil =>
    simp only [upsertEntry, List.mem_singleton] at hx
    subst hx
    exact Or.inr ⟨rfl, rfl, rfl⟩
  | cons e rest ih =>
    by_cases hm : entryMatches hid day e = true
    · simp only [upsertEntry, if_pos hm, List.mem_cons] at hx
      rcases hx with rfl | hx'
      · exact Or.inr ⟨rfl, rfl, rfl⟩
      · exact Or.inl (List.mem_cons_of_mem _ hx')
    · simp only [upsertEntry, if_neg hm, List.mem_cons] at hx
      rcases hx with rfl | hx'
      · exact Or.inl (List.mem_cons_self _ _)
      · rcases ih hx' with h | h
        · exact Or.inl (List.mem_cons_of_mem _ h)
        · exact Or.inr h

/-- After the upsert, the `find_one` lookup on the same key hits a document
with `completed = true`: this is what makes the second `complete_today` call
take the `already_completed` branch. -/
theorem isCompletedDoc_findOne_upsert (hid : String) (day now : Nat) (l : List EntryDoc) :
    isCompletedDoc (findOneEntry hid day (upsertEntry hid day now l)) = true := by
  induction l with
  | nil =>
    simp [upsertEntry, findOneEntry, List.find?, entryMatches, isCompletedDoc]
  | cons e rest ih =>
    by_cases hm : entryMatches hid day e = true
    · rcases entryMatches_iff.1 hm with ⟨h1, h2⟩
      simp only [upsertEntry, if_pos hm, findOneEntry]
      rw [List.find?_cons_of_pos]
      · simp [isCompletedDoc]
      · simp [entryMatches]
    · simp only [upsertEntry, if_neg hm, findOneEntry]
      rw [List.find?_cons_of_neg _ hm]
      exact ih

/-- Key-uniqueness survives the upsert. -/
theorem uniqueEntries_upsertEntry {hid : String} {day now : Nat} {l : List EntryDoc}
    (hu : uniqueEntries l = true) : uniqueEntries (upsertEntry hid day now l) = true := by
  induction l with
  | nil => simp [upsertEntry, uniqueEntries]
  | cons e rest ih =>
    rcases uniqueEntries_cons.1 hu with ⟨hall, hrest⟩
    by_cases hm : entryMatches hid day e = true
    · rcases entryMatches_iff.1 hm with ⟨h1, h2⟩
      simp only [upsertEntry, if_pos hm]
      refine uniqueEntries_cons.2 ⟨?_, hrest⟩
      intro x hx
      have := hall x hx
      simpa [h1, h2] using this
    · have hm' : ¬(e.habit_id = hid ∧ e.entry_date = day) := fun h => hm (entryMatches_iff.2 h)
      simp only [upsertEntry, if_neg hm]
      refine uniqueEntries_cons.2 ⟨?_, ih hrest⟩
      intro x hx
      rcases mem_upsertEntry hx with h | ⟨k1, k2, _⟩
      · exact hall x h
      · rintro ⟨g1, g2⟩
        exact hm' ⟨g1 ▸ k1.symm ▸ rfl, g2 ▸ k2.symm ▸ rfl⟩

/-- `delete_one` only removes documents. -/
theorem mem_deleteOneEntry {hid : String} {day : Nat} {l : List EntryDoc} {x : EntryDoc}
    (hx : x ∈ (deleteOneEntry hid day l).1) : x ∈ l := by
  induction l with
  | nil => simp [deleteOneEntry] at hx
  | cons e rest ih =>
    by_cases hm : entryMatches hid day e = true
    · simp only [deleteOneEntry, if_pos hm] at hx
      exact List.mem_cons_of_mem _ hx
    · simp only [deleteOneEntry, if_neg hm, List.mem_cons] at hx
      rcases hx with rfl | hx'
      · exact List.mem_cons_self _ _
      · exact List.mem_cons_of_mem _ (ih hx')

/-- Key-uniqueness survives `delete_one`. -/
theorem uniqueEntries_deleteOneEntry {hid : String} {day : Nat} {l : List EntryDoc}
    (hu : uniqueEntries l = true) : uniqueEntries (deleteOneEntry hid day l).1 = true := by
  induction l with
  | nil => simpa [deleteOneEntry] using hu
  | cons e rest ih =>
    rcases uniqueEntries_cons.1 hu with ⟨hall, hrest⟩
    by_cases hm : entryMatches hid day e = true
    · simpa [deleteOneEntry, if_pos hm] using hrest
    · simp only [deleteOneEntry, if_neg hm]
      refine uniqueEntries_cons.2 ⟨fun x hx => hall x (mem_deleteOneEntry hx), ih hrest⟩

/-- `deleted_count == 1` exactly when some document matched the filter. -/
theorem deleteOneEntry_flag {hid : String} {day : Nat} {l : List EntryDoc} :
    (deleteOneEntry hid day l).2 = (findOneEntry hid day l).isSome := by
  induction l with
  | nil => simp [deleteOneEntry, findOneEntry]
  | cons e rest ih =>
    by_cases hm : entryMatches hid day e = true
    · simp [deleteOneEntry, if_pos hm, findOneEntry, List.find?_cons_of_pos _ hm]
    · simp only [deleteOneEntry, if_neg hm, findOneEntry] at ih ⊢
      rw [List.find?_cons_of_neg _ hm]
      exact ih

/-- On a key-unique collection, `delete_one` removes every document with the
key: no match remains afterwards. -/
theorem findOne_deleteOneEntry {hid : String} {day : Nat} {l : List EntryDoc}
    (hu : uniqueEntries l = true) :
    findOneEntry hid day (deleteOneEntry hid day l).1 = none := by
  induction l with
  | nil => simp [deleteOneEntry, findOneEntry]
  | cons e rest ih =>
    rcases uniqueEntries_cons.1 hu with ⟨hall, hrest⟩
    by_cases hm : entryMatches hid day e = true
    · rcases entryMatches_iff.1 hm with ⟨h1, h2⟩
      simp only [deleteOneEntry, if_pos hm, findOneEntry]
      rw [List.find?_eq_none]
      intro x hx hxm
      rcases entryMatches_iff.1 hxm with ⟨g1, g2⟩
      exact hall x hx ⟨g1.trans h1.symm, g2.trans h2.symm⟩
    · simp only [deleteOneEntry, if_neg hm, findOneEntry]
      rw [List.find?_cons_of_neg _ hm]
      exact ih hrest

/-! ### Helper lemmas about sorting and the cursor limit -/

theorem mem_insertByDateDesc {e x : EntryDoc} {l : List EntryDoc} :
    x ∈ insertByDateDesc e l ↔ x = e ∨ x ∈ l := by
  induction l with
  | nil => simp [insertByDateDesc]
  | cons y ys ih =>
    by_cases h : y.entry_date < e.entry_date
    · simp [insertByDateDesc, if_pos h, List.mem_cons]
    · simp only [insertByDateDesc, if_neg h, List.mem_cons, ih]
      tauto

theorem mem_sortByDateDesc {x : EntryDoc} {l : List EntryDoc} :
    x ∈ sortByDateDesc l ↔ x ∈ l := by
  induction l with
  | nil => simp [sortByDateDesc]
  | cons y ys ih =>
    simp [sortByDateDesc, mem_insertByDateDesc, ih, List.mem_cons]

/-- The date-descending order, as a relation on entry documents. -/
def dateGE (a b : EntryDoc) : Prop := b.entry_date ≤ a.entry_date

theorem pairwise_insertByDateDesc {e : EntryDoc} {l : List EntryDoc}
    (h : List.Pairwise dateGE l) : List.Pairwise dateGE (insertByDateDesc e l) := by
  induction l with
  | nil => simp [insertByDateDesc]
  | cons y ys ih =>
    rcases List.pairwise_cons.1 h with ⟨hy, hys⟩
    by_cases hlt : y.entry_date < e.entry_date
    · simp only [insertByDateDesc, if_pos hlt]
      refine List.pairwise_cons.2 ⟨?_, h⟩
      intro z hz
      rcases List.mem_cons.1 hz with rfl | hz'
      · exact Nat.le_of_lt hlt
      · exact Nat.le_trans (hy z hz') (Nat.le_of_lt hlt)
    · simp only [insertByDateDesc, if_neg hlt]
      refine List.pairwise_cons.2 ⟨?_, ih hys⟩
      intro z hz
      rcases mem_insertByDateDesc.1 hz with rfl | hz'
      · exact Nat.le_of_not_lt hlt
      · exact hy z hz'

theorem pairwise_sortByDateDesc (l : List EntryDoc) :
    List.Pairwise dateGE (sortByDateDesc l) := by
  induction l with
  | nil => simp [sortByDateDesc]
  | cons y ys ih => exact pairwise_insertByDateDesc ih

theorem mem_mongoLimit {n : Int} {xs : List α} {x : α} (hx : x ∈ mongoLimit n xs) :
    x ∈ xs := by
  unfold mongoLimit at hx
  split at hx
  · exact hx
  · exact List.take_subset _ _ hx

theorem pairwise_mongoLimit {R : α → α → Prop} {n : Int} {xs : List α}
    (h : List.Pairwise R xs) : List.Pairwise R (mongoLimit n xs) := by
  unfold mongoLimit
  split
  · exact h
  · exact List.Pairwise.sublist (List.take_sublist _ _) h

theorem length_mongoLimit {n : Int} (hn : 1 ≤ n) (xs : List α) :
    (mongoLimit n xs).length ≤ n.toNat := by
  unfold mongoLimit
  have hne : (n == 0) = false := by
    simp only [beq_eq_false_iff_ne, ne_eq]
    omega
  rw [hne]
  simp only [if_neg Bool.false_ne_true, List.length_take]
  have : n.natAbs = n.toNat := by omega
  omega

/-! ### Effect of each endpoint on the collections -/

theorem complete_today_habits (hid : String) (today now : Nat) (st : DBState) :
    (complete_today hid today now st).2.habits = st.habits := by
  unfold complete_today
  split <;> rfl

theorem uncomplete_today_habits (hid : String) (today : Nat) (st : DBState) :
    (uncomplete_today hid today st).2.habits = st.habits := rfl

theorem create_habit_entries (p : HabitPayload) (newId : String) (st : DBState) :
    (create_habit p newId st).2.entries = st.entries := by
  unfold create_habit
  rcases habitCreateValidate p with e | d
  · rfl
  · simp only
    rcases habitSchemaValidate d with e | r <;> rfl

/-- Key-uniqueness of the entry collection is preserved by every endpoint. -/
theorem uniqueEntries_applyOp (st : DBState) (op : Op)
    (hu : uniqueEntries st.entries = true) :
    uniqueEntries (applyOp st op).entries = true := by
  cases op with
  | createHabit p i => rw [applyOp, create_habit_entries]; exact hu
  | listHabits t => exact hu
  | completeToday h t n =>
    rw [applyOp]
    unfold complete_today
    split
    · exact hu
    · exact uniqueEntries_upsertEntry hu
  | uncompleteToday h t =>
    rw [applyOp]
    exact uniqueEntries_deleteOneEntry hu
  | getEntries h l => exact hu

/-- Every entry ever stored has `completed = true`: preserved by every
endpoint. -/
theorem allCompleted_applyOp (st : DBState) (op : Op)
    (hc : ∀ e ∈ st.entries, e.completed = some true) :
    ∀ e ∈ (applyOp st op).entries, e.completed = some true := by
  cases op with
  | createHabit p i => rw [applyOp, create_habit_entries]; exact hc
  | listHabits t => exact hc
  | completeToday h t n =>
    rw [applyOp]
    unfold complete_today
    split
    · exact hc
    · intro e he
      rcases mem_upsertEntry he with h' | ⟨_, _, h'⟩
      · exact hc e h'
      · exact h'
  | uncompleteToday h t =>
    rw [applyOp]
    intro e he
    exact hc e (mem_deleteOneEntry he)
  | getEntries h l => exact hc

/-- Any per-state property preserved by every endpoint holds after any call
sequence that starts in a state satisfying it. -/
theorem foldl_preserves {P : DBState → Prop}
    (hP : ∀ st op, P st → P (applyOp st op)) (st : DBState) (hst : P st)
    (ops : List Op) : P (ops.foldl applyOp st) := by
  induction ops generalizing st with
  | nil => exact hst
  | cons op rest ih => exact ih _ (hP st op hst)

/-- On a key-unique collection, at most one document matches any
`(habit_id, entry_date)` filter. -/
theorem count_le_one_of_unique {l : List EntryDoc} (hu : uniqueEntries l = true)
    (hid : String) (day : Nat) :
    (l.filter (entryMatches hid day)).length ≤ 1 := by
  induction l with
  | nil => simp
  | cons e rest ih =>
    rcases uniqueEntries_cons.1 hu with ⟨hall, hrest⟩
    by_cases hm : entryMatches hid day e = true
    · rcases entryMatches_iff.1 hm with ⟨h1, h2⟩
      have hnil : rest.filter (entryMatches hid day) = [] := by
        rw [List.filter_eq_nil_iff]
        intro x hx hxm
        rcases entryMatches_iff.1 hxm with ⟨g1, g2⟩
        exact hall x hx ⟨g1.trans h1.symm, g2.trans h2.symm⟩
      simp [List.filter_cons, hm, hnil]
    · simp only [List.filter_cons, hm, if_false, Bool.false_eq_true]
      exact ih hrest

/-! ### Concrete payloads used by the scenario claims -/

/-- The spec's concrete creation scenario, with a chosen `category` field
(`none` means the payload omits it). -/
def fajrPayload (c : Option String) : HabitPayload :=
  { title := some "Fajr", description := none, category := c, frequency := none,
    goal_per_period := some 1, color := none }

/-- The `Habit` record that scenario persists. -/
def fajrRecord (c : Option String) : HabitRecord :=
  { title := "Fajr", description := none, category := c, frequency := "daily",
    goal_per_period := 1, color := none }

/-- A minimal valid payload with a chosen `goal_per_period`. -/
def goalPayload (g : Int) : HabitPayload :=
  { title := some "Fajr", description := none, category := none, frequency := none,
    goal_per_period := some g, color := none }

/-- The `Habit` record `create_habit` builds from a payload that passes both
validation stages (defaults filled in). -/
def habitFromPayload (p : HabitPayload) : HabitRecord :=
  { title := p.title.getD "", description := p.description,
    category := some (p.category.getD "sonstiges"),
    frequency := p.frequency.getD "daily",
    goal_per_period := p.goal_per_period.getD 1, color := p.color }

/-- The non-title fields of a payload pass both validation stages after
defaults are filled in. -/
def otherFieldsValid (p : HabitPayload) : Bool :=
  habitCategories.contains (p.category.getD "sonstiges") &&
    frequencyOk (p.frequency.getD "daily") &&
    decide (1 ≤ p.goal_per_period.getD 1) && decide (p.goal_per_period.getD 1 ≤ 1000)

end HabitTracker

deriving instance DecidableEq for Except

namespace HabitTracker

/-! ### The claims -/

/-- C1, counterexample: the spec's concrete scenario payload
`{title: "Fajr", category: "prayer", goal_per_period: 1}` does not succeed:
`category` "prayer" passes the permissive `HabitCreate` request model but the
`Habit` schema accepts only the German literals, so the handler raises and no
identifier is returned and nothing is written. -/
theorem create_habit_prayer_rejected :
    (create_habit (fajrPayload (some "prayer")) "6500a1b2c3d4e5f6a7b8c9d0" initState).1
      = .error (.serverError "category: input should be one of the literal values") ∧
    (create_habit (fajrPayload (some "prayer")) "6500a1b2c3d4e5f6a7b8c9d0" initState).2
      = initState := by
  decide

/-- C1 (amended): the categories the create-habit operation accepts are
exactly the schema's literals {gebet, quran, dhikr, spenden, wissen,
gesundheit, sonstiges}; for each of them the scenario payload succeeds,
returning the store-assigned identifier and persisting the habit with that
category, and a payload that omits `category` yields a habit with category
"sonstiges". -/
theorem create_habit_category_accepted (c : String) (hc : c ∈ habitCategories)
    (st : DBState) (newId : String) :
    create_habit (fajrPayload (some c)) newId st
      = (.ok newId,
         { st with habits := st.habits ++ [{ id := newId, data := fajrRecord (some c) }] }) ∧
    create_habit (fajrPayload none) newId st
      = (.ok newId,
         { st with habits := st.habits ++ [{ id := newId, data := fajrRecord (some "sonstiges") }] }) := by
  constructor
  · fin_cases hc <;> rfl
  · rfl

/-- Witness for C1's amended theorem at category "gebet" in the empty store. -/
theorem create_habit_category_accepted_witness :
    "gebet" ∈ habitCategories ∧
    (create_habit (fajrPayload (some "gebet")) "6500a1b2c3d4e5f6a7b8c9d0" initState
      = (.ok "6500a1b2c3d4e5f6a7b8c9d0",
         { initState with habits := initState.habits ++
            [{ id := "6500a1b2c3d4e5f6a7b8c9d0", data := fajrRecord (some "gebet") }] }) ∧
     create_habit (fajrPayload none) "6500a1b2c3d4e5f6a7b8c9d0" initState
      = (.ok "6500a1b2c3d4e5f6a7b8c9d0",
         { initState with habits := initState.habits ++
            [{ id := "6500a1b2c3d4e5f6a7b8c9d0", data := fajrRecord (some "sonstiges") }] })) :=
  ⟨by decide,
   create_habit_category_accepted "gebet" (by decide) initState "6500a1b2c3d4e5f6a7b8c9d0"⟩

/-- C2, counterexample: a creation payload whose title is the empty string is
not rejected: `HabitCreate` only requires `title` to be present and a string,
and the `Habit` schema adds no non-emptiness constraint, so the empty-titled
habit is persisted and its identifier returned. -/
theorem create_habit_empty_title_persisted :
    (create_habit ⟨some "", none, none, none, none, none⟩ "6500aa" initState).1
      = .ok "6500aa" ∧
    (create_habit ⟨some "", none, none, none, none, none⟩ "6500aa" initState).2.habits
      ≠ initState.habits := by
  decide

/-- C2 (amended): a creation payload that omits `title` is rejected before
any write with a client-error response identifying the `title` field; a
payload whose title is any string (the empty string included) and whose other
fields are valid persists exactly one `Habit` record, appended to the
collection, leaving the rest of the state unchanged. -/
theorem create_habit_title_rules (p : HabitPayload) (newId : String) (st : DBState) :
    (p.title = none →
      create_habit p newId st = (.error (.clientError "title: field required"), st)) ∧
    (∀ t, p.title = some t → otherFieldsValid p = true →
      create_habit p newId st
        = (.ok newId,
           { st with habits := st.habits ++ [{ id := newId, data := habitFromPayload p }] })) := by
  constructor
  · intro h
    unfold create_habit habitCreateValidate
    rw [h]
  · intro t ht hv
    unfold otherFieldsValid at hv
    simp only [Bool.and_eq_true, decide_eq_true_eq] at hv
    obtain ⟨⟨⟨hcat, hfreq⟩, hge⟩, hle⟩ := hv
    have hd : habitFromPayload p
        = { title := t, description := p.description,
            category := some (p.category.getD "sonstiges"),
            frequency := p.frequency.getD "daily",
            goal_per_period := p.goal_per_period.getD 1, color := p.color } := by
      simp [habitFromPayload, ht]
    have hcv : habitCreateValidate p
        = .ok { title := t, description := p.description,
                category := some (p.category.getD "sonstiges"),
                frequency := p.frequency.getD "daily",
                goal_per_period := p.goal_per_period.getD 1, color := p.color } := by
      unfold habitCreateValidate
      rw [ht]
      cases hg : p.goal_per_period with
      | none => rfl
      | some g =>
        have hgn : ¬(g < 1) := by
          rw [hg] at hge
          simp only [Option.getD_some] at hge
          omega
        simp only [if_neg hgn, Option.getD_some]
    have hsv : habitSchemaValidate
        { title := t, description := p.description,
          category := some (p.category.getD "sonstiges"),
          frequency := p.frequency.getD "daily",
          goal_per_period := p.goal_per_period.getD 1, color := p.color }
        = .ok (habitFromPayload p) := by
      unfold habitSchemaValidate
      rw [show (! categoryOk (some (p.category.getD "sonstiges"))) = false by
        simp only [categoryOk, hcat, Bool.not_true]]
      rw [show (! frequencyOk (p.frequency.getD "daily")) = false by
        simp only [hfreq, Bool.not_true]]
      simp only [Bool.false_eq_true, if_false]
      rw [if_neg (by omega :
        ¬(p.goal_per_period.getD 1 < 1 ∨ 1000 < p.goal_per_period.getD 1))]
      rw [hd]
    unfold create_habit
    simp only [hcv, hsv]
    rfl

/-- Witness for C2's amended theorem: the missing-title rejection at an
omitted title, and the persist at the empty-string title, both in the empty
store. -/
theorem create_habit_title_rules_witness :
    ((⟨none, none, none, none, none, none⟩ : HabitPayload).title = none →
      create_habit ⟨none, none, none, none, none, none⟩ "6500ab" initState
        = (.error (.clientError "title: field required"), initState)) ∧
    (∀ t, (⟨some "", none, none, none, none, none⟩ : HabitPayload).title = some t →
      otherFieldsValid ⟨some "", none, none, none, none, none⟩ = true →
      create_habit ⟨some "", none, none, none, none, none⟩ "6500ab" initState
        = (.ok "6500ab",
           { initState with habits := initState.habits ++
              [{ id := "6500ab",
                 data := habitFromPayload ⟨some "", none, none, none, none, none⟩ }] })) :=
  create_habit_title_rules ⟨none, none, none, none, none, none⟩ "6500ab" initState |>.1
    |> fun h1 =>
      ⟨h1, (create_habit_title_rules ⟨some "", none, none, none, none, none⟩ "6500ab" initState).2⟩

/-- C5: the create-habit operation rejects `goal_per_period` 0 (at request
parsing, a client error) and 1001 (at schema construction, a server error),
both before any write, and accepts 1 and 1000; in general a payload differing
only in `goal_per_period` is accepted exactly when 1 ≤ goal ≤ 1000. -/
theorem create_habit_goal_bounds (st : DBState) (newId : String) :
    create_habit (goalPayload 0) newId st
      = (.error (.clientError "goal_per_period: input should be at least 1"), st) ∧
    create_habit (goalPayload 1001) newId st
      = (.error (.serverError "goal_per_period: input should be between 1 and 1000"), st) ∧
    (create_habit (goalPayload 1) newId st).1 = .ok newId ∧
    (create_habit (goalPayload 1000) newId st).1 = .ok newId ∧
    ∀ g : Int, ((create_habit (goalPayload g) newId st).1 = .ok newId ↔ 1 ≤ g ∧ g ≤ 1000) := by
  refine ⟨rfl, rfl, rfl, rfl, ?_⟩
  intro g
  unfold create_habit habitCreateValidate goalPayload
  simp only
  by_cases hg : g < 1
  · rw [if_pos hg]
    constructor
    · intro h
      exact absurd h (by simp)
    · intro h
      omega
  · rw [if_neg hg]
    simp only [habitSchemaValidate]
    rw [show (! categoryOk (some ((none : Option String).getD "sonstiges"))) = false from rfl]
    rw [show (! frequencyOk ((none : Option String).getD "daily")) = false from rfl]
    simp only [Bool.false_eq_true, if_false]
    by_cases hgl : g < 1 ∨ 1000 < g
    · rw [if_pos hgl]
      constructor
      · intro h
        exact absurd h (by simp)
      · intro h
        omega
    · rw [if_neg hgl]
      simp only [true_iff, Except.ok.injEq]
      omega

/-- C3: when no completed entry exists for the pair, the first complete-today
call reports "completed"; the immediately following call for the same habit
and date reports "already_completed" and leaves the state untouched (so no
write happens and the entry's `created_at` is identical after both calls). -/
theorem complete_today_idempotent (hid : String) (today now1 now2 : Nat) (st : DBState)
    (h : isCompletedDoc (findOneEntry hid today st.entries) = false) :
    (complete_today hid today now1 st).1 = .completed ∧
    complete_today hid today now2 (complete_today hid today now1 st).2
      = (.already_completed, (complete_today hid today now1 st).2) ∧
    (findOneEntry hid today
        (complete_today hid today now2 (complete_today hid today now1 st).2).2.entries).map
        EntryDoc.created_at
      = (findOneEntry hid today (complete_today hid today now1 st).2.entries).map
        EntryDoc.created_at := by
  have h1 : complete_today hid today now1 st
      = (.completed, { st with entries := upsertEntry hid today now1 st.entries }) := by
    unfold complete_today
    rw [if_neg (by rw [h]; exact Bool.false_ne_true)]
  have h2 : complete_today hid today now2 (complete_today hid today now1 st).2
      = (.already_completed, (complete_today hid today now1 st).2) := by
    rw [h1]
    unfold complete_today
    rw [if_pos (isCompletedDoc_findOne_upsert hid today now1 st.entries)]
  refine ⟨by rw [h1], h2, by rw [h2]⟩

/-- Witness for C3 in the empty store. -/
theorem complete_today_idempotent_witness :
    (complete_today "h1" 3 5 initState).1 = .completed ∧
    complete_today "h1" 3 9 (complete_today "h1" 3 5 initState).2
      = (.already_completed, (complete_today "h1" 3 5 initState).2) ∧
    (findOneEntry "h1" 3
        (complete_today "h1" 3 9 (complete_today "h1" 3 5 initState).2).2.entries).map
        EntryDoc.created_at
      = (findOneEntry "h1" 3 (complete_today "h1" 3 5 initState).2.entries).map
        EntryDoc.created_at :=
  complete_today_idempotent "h1" 3 5 9 initState (by decide)

/-- C4: after any sequence of endpoint calls starting from the empty store,
at most one entry document matches any `(habit_id, entry_date)` pair. -/
theorem at_most_one_entry_per_pair (ops : List Op) (hid : String) (day : Nat) :
    ((runOps ops).entries.filter (entryMatches hid day)).length ≤ 1 :=
  count_le_one_of_unique
    (foldl_preserves (fun st op h => uniqueEntries_applyOp st op h) initState rfl ops)
    hid day

/-- C6: complete-today followed by uncomplete-today for the same habit and
date reports "removed" (the record is deleted outright), and listing that
habit's entries afterwards shows no entry for that date. -/
theorem complete_uncomplete_roundtrip (hid : String) (today now : Nat) (limit : Int)
    (st : DBState) (hu : uniqueEntries st.entries = true) :
    (uncomplete_today hid today (complete_today hid today now st).2).1 = .removed ∧
    ∀ p ∈ get_entries hid limit (uncomplete_today hid today (complete_today hid today now st).2).2,
      p.1 ≠ today := by
  have hu1 : uniqueEntries (complete_today hid today now st).2.entries = true := by
    have := uniqueEntries_applyOp st (.completeToday hid today now) hu
    simpa [applyOp] using this
  have hsome : (findOneEntry hid today (complete_today hid today now st).2.entries).isSome
      = true := by
    unfold complete_today
    by_cases hc : isCompletedDoc (findOneEntry hid today st.entries) = true
    · rw [if_pos hc]
      cases hfind : findOneEntry hid today st.entries with
      | none => rw [hfind] at hc; exact absurd hc (by simp [isCompletedDoc])
      | some e => simp [hfind]
    · rw [if_neg hc]
      have h := isCompletedDoc_findOne_upsert hid today now st.entries
      cases hfind : findOneEntry hid today (upsertEntry hid today now st.entries) with
      | none => rw [hfind] at h; exact absurd h (by simp [isCompletedDoc])
      | some e => simp
  constructor
  · unfold uncomplete_today
    simp only [deleteOneEntry_flag, hsome, if_true]
  · intro p hp
    have hnone : findOneEntry hid today
        (deleteOneEntry hid today (complete_today hid today now st).2.entries).1 = none :=
      findOne_deleteOneEntry hu1
    rcases List.mem_map.1 hp with ⟨e, he, hpe⟩
    have he2 := mem_mongoLimit he
    have he3 := mem_sortByDateDesc.1 he2
    rcases List.mem_filter.1 he3 with ⟨he4, hhid⟩
    intro hdate
    have hem : entryMatches hid today e = true := by
      refine entryMatches_iff.2 ⟨by simpa using hhid, ?_⟩
      have : e.entry_date = p.1 := by rw [← hpe]
      rw [this, hdate]
    have := (List.find?_eq_none.1 hnone) e he4
    exact this hem

/-- Witness for C6 in a store already holding an unrelated entry. -/
theorem complete_uncomplete_roundtrip_witness :
    (uncomplete_today "h1" 3 (complete_today "h1" 3 5 initState).2).1 = .removed ∧
    ∀ p ∈ get_entries "h1" 30 (uncomplete_today "h1" 3 (complete_today "h1" 3 5 initState).2).2,
      p.1 ≠ 3 :=
  complete_uncomplete_roundtrip "h1" 3 5 30 initState (by decide)

/-- C7: list-habits returns every stored habit paired with a derived
`today_completed` flag, and (on a key-unique entry collection, which every
reachable state has) the flag is true exactly when an entry for that habit's
identifier and today's date exists with `completed = true`; it is false when
no entry exists or the entry's `completed` field is absent or false. -/
theorem list_habits_today_completed (today : Nat) (st : DBState)
    (hu : uniqueEntries st.entries = true) (h : HabitDoc) (hmem : h ∈ st.habits) :
    (h, todayCompletedFlag h.id today st.entries) ∈ list_habits today st ∧
    (todayCompletedFlag h.id today st.entries = true ↔
      ∃ e ∈ st.entries, e.habit_id = h.id ∧ e.entry_date = today ∧ e.completed = some true) := by
  constructor
  · exact List.mem_map.2 ⟨h, hmem, rfl⟩
  constructor
  · intro hflag
    unfold todayCompletedFlag at hflag
    cases hfind : findOneEntry h.id today st.entries with
    | none => rw [hfind] at hflag; exact absurd hflag (by simp [isCompletedDoc])
    | some e =>
      rw [hfind] at hflag
      have hm := List.find?_some hfind
      have hmem' := List.mem_of_find?_eq_some hfind
      rcases entryMatches_iff.1 hm with ⟨g1, g2⟩
      refine ⟨e, hmem', g1, g2, ?_⟩
      cases hc : e.completed with
      | none =>
        simp only [isCompletedDoc, hc, Option.getD_none] at hflag
        exact absurd hflag (by simp)
      | some b =>
        simp only [isCompletedDoc, hc, Option.getD_some] at hflag
        rw [hflag]
  · rintro ⟨e, he, g1, g2, g3⟩
    have hsome : (findOneEntry h.id today st.entries).isSome = true := by
      rw [findOneEntry, List.find?_isSome]
      exact ⟨e, he, entryMatches_iff.2 ⟨g1, g2⟩⟩
    rcases Option.isSome_iff_exists.1 hsome with ⟨e0, he0⟩
    have hm0 := List.find?_some he0
    have hmem0 := List.mem_of_find?_eq_some he0
    rcases entryMatches_iff.1 hm0 with ⟨k1, k2⟩
    have he0e : e0 = e := uniqueEntries_eq_of_key hu hmem0 he (k1.trans g1.symm) (k2.trans g2.symm)
    unfold todayCompletedFlag
    show isCompletedDoc (findOneEntry h.id today st.entries) = true
    rw [show findOneEntry h.id today st.entries = some e0 from he0, he0e]
    simp [isCompletedDoc, g3]

/-- Witness for C7: a store with one habit whose entry for day 3 is
completed. -/
theorem list_habits_today_completed_witness :
    ({ id := "6500aa", data := fajrRecord (some "gebet") },
      todayCompletedFlag "6500aa" 3
        (runOps [.createHabit (fajrPayload (some "gebet")) "6500aa",
                 .completeToday "6500aa" 3 5]).entries)
      ∈ list_habits 3 (runOps [.createHabit (fajrPayload (some "gebet")) "6500aa",
                               .completeToday "6500aa" 3 5]) ∧
    (todayCompletedFlag "6500aa" 3
        (runOps [.createHabit (fajrPayload (some "gebet")) "6500aa",
                 .completeToday "6500aa" 3 5]).entries = true ↔
      ∃ e ∈ (runOps [.createHabit (fajrPayload (some "gebet")) "6500aa",
                     .completeToday "6500aa" 3 5]).entries,
        e.habit_id = ({ id := "6500aa", data := fajrRecord (some "gebet") } : HabitDoc).id ∧
        e.entry_date = 3 ∧ e.completed = some true) :=
  list_habits_today_completed 3
    (runOps [.createHabit (fajrPayload (some "gebet")) "6500aa", .completeToday "6500aa" 3 5])
    (by decide) { id := "6500aa", data := fajrRecord (some "gebet") } (by decide)

/-- C8, counterexample: with limit 0 the list-entries operation does not
return at most 0 records: the cursor's `limit(0)` means "no limit", so with
one stored entry it returns that entry. -/
theorem get_entries_zero_limit :
    (get_entries "h1" 0 (runOps [.completeToday "h1" 3 5])).length = 1 ∧
    ¬((get_entries "h1" 0 (runOps [.completeToday "h1" 3 5])).length ≤ 0) := by
  decide

/-- C8 (amended): for every habit identifier and every positive limit N
(default 30), the list-entries operation returns at most N records, ordered
by `entry_date` descending, each the `(entry_date, completed-or-false)`
reduction of a stored entry of that habit; a limit of 0 disables the cap. -/
theorem get_entries_spec (hid : String) (limit : Int) (st : DBState) (hlim : 1 ≤ limit) :
    (get_entries hid limit st).length ≤ limit.toNat ∧
    List.Pairwise (fun a b => b.1 ≤ a.1) (get_entries hid limit st) ∧
    ∀ p ∈ get_entries hid limit st,
      ∃ e ∈ st.entries, e.habit_id = hid ∧ p = (e.entry_date, e.completed.getD false) := by
  refine ⟨?_, ?_, ?_⟩
  · unfold get_entries
    rw [List.length_map]
    exact length_mongoLimit hlim _
  · unfold get_entries
    rw [List.pairwise_map]
    exact pairwise_mongoLimit (pairwise_sortByDateDesc _)
  · intro p hp
    rcases List.mem_map.1 hp with ⟨e, he, hpe⟩
    have he2 := mem_mongoLimit he
    have he3 := mem_sortByDateDesc.1 he2
    rcases List.mem_filter.1 he3 with ⟨he4, hhid⟩
    exact ⟨e, he4, by simpa using hhid, hpe.symm⟩

/-- Witness for C8's amended theorem: two entries, limit 30. -/
theorem get_entries_spec_witness :
    (1 : Int) ≤ 30 ∧
    ((get_entries "h1" 30 (runOps [.completeToday "h1" 3 5, .completeToday "h1" 7 8])).length
        ≤ (30 : Int).toNat ∧
     List.Pairwise (fun a b => b.1 ≤ a.1)
       (get_entries "h1" 30 (runOps [.completeToday "h1" 3 5, .completeToday "h1" 7 8])) ∧
     ∀ p ∈ get_entries "h1" 30 (runOps [.completeToday "h1" 3 5, .completeToday "h1" 7 8]),
       ∃ e ∈ (runOps [.completeToday "h1" 3 5, .completeToday "h1" 7 8]).entries,
         e.habit_id = "h1" ∧ p = (e.entry_date, e.completed.getD false)) :=
  ⟨by decide,
   get_entries_spec "h1" 30 (runOps [.completeToday "h1" 3 5, .completeToday "h1" 7 8])
     (by decide)⟩

/-- C9: no endpoint updates or deletes a stored `Habit` record: listing,
completing, uncompleting and entry-listing leave the habit collection
untouched, and create-habit either leaves it untouched (a rejected payload)
or appends exactly one new record, leaving all existing records unchanged. -/
theorem habit_collection_frame (st : DBState) :
    (∀ t : Nat, (applyOp st (.listHabits t)).habits = st.habits) ∧
    (∀ hid : String, ∀ t n : Nat, (applyOp st (.completeToday hid t n)).habits = st.habits) ∧
    (∀ hid : String, ∀ t : Nat, (applyOp st (.uncompleteToday hid t)).habits = st.habits) ∧
    (∀ hid : String, ∀ l : Int, (applyOp st (.getEntries hid l)).habits = st.habits) ∧
    (∀ p : HabitPayload, ∀ newId : String,
      (applyOp st (.createHabit p newId)).habits = st.habits ∨
      ∃ r : HabitRecord,
        (applyOp st (.createHabit p newId)).habits = st.habits ++ [{ id := newId, data := r }]) := by
  refine ⟨fun t => rfl, fun hid t n => complete_today_habits hid t n st,
    fun hid t => rfl, fun hid l => rfl, ?_⟩
  intro p newId
  rcases hcv : habitCreateValidate p with e | d
  · exact Or.inl (by simp [applyOp, create_habit, hcv])
  · rcases hsv : habitSchemaValidate d with e | r
    · exact Or.inl (by simp [applyOp, create_habit, hcv, hsv])
    · exact Or.inr ⟨r, by simp [applyOp, create_habit, hcv, hsv, create_document]⟩

/-- C10: every entry document reachable through the endpoints has
`completed = true`: complete-today is the only writer of entries and always
sets the flag to true, and uncomplete-today deletes the record instead of
flipping it. -/
theorem entries_always_completed (ops : List Op) :
    ∀ e ∈ (runOps ops).entries, e.completed = some true :=
  foldl_preserves (P := fun st => ∀ e ∈ st.entries, e.completed = some true)
    allCompleted_applyOp initState (by intro e he; cases he) ops

/-- Witness for C10: the entry written by one complete-today call. -/
theorem entries_always_completed_witness :
    ({ habit_id := "h1", entry_date := 3, completed := some true, notes := none,
       created_at := 5, updated_at := 5 } : EntryDoc).completed = some true :=
  entries_always_completed [.completeToday "h1" 3 5]
    { habit_id := "h1", entry_date := 3, completed := some true, notes := none,
      created_at := 5, updated_at := 5 } (by decide)

end HabitTracker
